import Mathlib

/-!
Shallow embedding of the SmartPDF-OCR pipeline (src/utils.py, src/config.py,
src/ocr_engine.py, src/pdf_processor.py, src/main.py) and proofs about it.

Python strings are embedded as `List Char` (`PyStr`), Python floats as `ℚ`,
Python dicts (which preserve insertion order) as association lists, and
fallible calls as `Except`-valued functions.  External collaborators
(Tesseract, EasyOCR, OpenCV, PyMuPDF, pdfplumber, the system clock and the
MD5 hash) are parameters of the embedded functions: the repository code under
verification only ever observes their return values.
-/

namespace SmartPDF

/-- Embedding of the Python `str` type: a list of characters. -/
abbrev PyStr := List Char

/-- `String.toList` shorthand used to write concrete `PyStr` literals. -/
def pyOf (s : String) : PyStr := s.data

/-- Python `str.strip()` with no argument: drop whitespace from both ends. -/
def pyStrip (s : PyStr) : PyStr :=
  ((s.dropWhile Char.isWhitespace).reverse.dropWhile Char.isWhitespace).reverse

/-- Helper for Python `str.split()`: accumulates the current word (reversed)
while scanning; a whitespace character closes the current word. -/
def pySplitAux (cur : PyStr) : PyStr → List PyStr
  | [] => if cur = [] then [] else [cur.reverse]
  | c :: cs =>
      if c.isWhitespace then
        if cur = [] then pySplitAux [] cs else cur.reverse :: pySplitAux [] cs
      else pySplitAux (c :: cur) cs

/-- Python `str.split()` with no argument: split on runs of whitespace,
discarding empty pieces (`src/utils.py`, `clean_text`). -/
def pySplit (s : PyStr) : List PyStr := pySplitAux [] s

/-- Python `' '.join(words)` (`src/utils.py`, `clean_text`). -/
def joinWords : List PyStr → PyStr
  | [] => []
  | [w] => w
  | w :: ws => w ++ ' ' :: joinWords ws

namespace Config

/-- `src/config.py` line 27: `MIN_TEXT_LENGTH = 10`. -/
def MIN_TEXT_LENGTH : ℕ := 10

end Config

/-- `src/utils.py` lines 129-141, `clean_text`: collapse whitespace with
`' '.join(text.split())`, then `text.replace('|', 'I')`,
then `text.replace('0', 'O')`, then `text.strip()`. -/
def clean_text (text : PyStr) : PyStr :=
  if text = [] then []
  else
    pyStrip ((((joinWords (pySplit text)).map
      (fun c => if c = '|' then 'I' else c)).map
      (fun c => if c = '0' then 'O' else c)))

/-- `src/utils.py` lines 143-150, `is_text_meaningful`: reject empty or
short (stripped length below `min_length`) text, then require that strictly
more than 70 percent of the characters are alphanumeric. -/
def is_text_meaningful (text : PyStr)
    (min_length : ℕ := Config.MIN_TEXT_LENGTH) : Bool :=
  if text = [] ∨ (pyStrip text).length < min_length then false
  else decide (((text.countP (fun c => c.isAlphanum) : ℕ) : ℚ) >
    (text.length : ℚ) * 0.7)

/-- The combined character substitution performed by `clean_text`:
`'|'` becomes `'I'`, `'0'` becomes `'O'`, all other characters unchanged. -/
def subChar (c : Char) : Char :=
  if c = '|' then 'I' else if c = '0' then 'O' else c

/-- A word produced by `pySplit`: nonempty and free of whitespace. -/
def goodWord (w : PyStr) : Prop := w ≠ [] ∧ ∀ c ∈ w, ¬ c.isWhitespace

lemma pySplitAux_goodWord (s : PyStr) :
    ∀ cur, (∀ c ∈ cur, ¬ c.isWhitespace) →
      ∀ w ∈ pySplitAux cur s, goodWord w := by
  induction s with
  | nil =>
      intro cur hcur w hw
      by_cases h : cur = []
      · simp [pySplitAux, h] at hw
      · simp [pySplitAux, h] at hw
        subst hw
        refine ⟨by simpa using h, ?_⟩
        intro c hc
        exact hcur c (by simpa using hc)
  | cons c cs ih =>
      intro cur hcur w hw
      by_cases hws : c.isWhitespace
      · by_cases h : cur = []
        · simp [pySplitAux, hws, h] at hw
          exact ih [] (by simp) w hw
        · simp [pySplitAux, hws, h] at hw
          rcases hw with hw | hw
          · subst hw
            refine ⟨by simpa using h, ?_⟩
            intro a ha
            exact hcur a (by simpa using ha)
          · exact ih [] (by simp) w hw
      · simp [pySplitAux, hws] at hw
        refine ih (c :: cur) ?_ w hw
        intro a ha
        rcases List.mem_cons.mp ha with rfl | ha
        · exact hws
        · exact hcur a ha

/-- Every word returned by `pySplit` is nonempty and whitespace-free. -/
lemma pySplit_goodWord (s : PyStr) : ∀ w ∈ pySplit s, goodWord w :=
  pySplitAux_goodWord s [] (by simp)

lemma dropWhile_eq_self_of_head {p : Char → Bool} :
    ∀ {l : PyStr}, (∀ h : l ≠ [], ¬ p (l.head h)) → l.dropWhile p = l := by
  intro l h
  cases l with
  | nil => rfl
  | cons c t =>
      have : ¬ p c := by simpa using h (by simp)
      simp [List.dropWhile_cons, this]

lemma dropWhile_append_of_ne_nil {p : Char → Bool} {l₂ : PyStr}
    (h₂ : l₂ ≠ []) (hdrop : l₂.dropWhile p = l₂) (l₁ : PyStr) :
    (l₂ ++ l₁).dropWhile p = l₂ ++ l₁ := by
  cases l₂ with
  | nil => exact absurd rfl h₂
  | cons c t =>
      by_cases hc : p c
      · exfalso
        rw [List.dropWhile_cons, if_pos hc] at hdrop
        have hle := (List.dropWhile_sublist (l := t) p).length_le
        rw [hdrop] at hle
        simp at hle
      · simp [List.dropWhile_cons, hc]

lemma joinWords_ne_nil {ws : List PyStr} (hne : ws ≠ [])
    (hgood : ∀ w ∈ ws, goodWord w) : joinWords ws ≠ [] := by
  cases ws with
  | nil => exact absurd rfl hne
  | cons w ws =>
      cases ws with
      | nil =>
          have := (hgood w (by simp)).1
          simpa [joinWords] using this
      | cons v vs =>
          simp [joinWords]

lemma dropWhile_eq_self_of_all {p : Char → Bool} {l : PyStr}
    (h : ∀ c ∈ l, ¬ p c) : l.dropWhile p = l := by
  refine dropWhile_eq_self_of_head ?_
  intro hne
  exact h _ (List.head_mem hne)

lemma dropWhile_joinWords {ws : List PyStr}
    (hgood : ∀ w ∈ ws, goodWord w) :
    (joinWords ws).dropWhile Char.isWhitespace = joinWords ws := by
  cases ws with
  | nil => rfl
  | cons w vs =>
      have hw := hgood w (by simp)
      have hall : ∀ c ∈ w, ¬ c.isWhitespace = true := fun c hc => hw.2 c hc
      cases vs with
      | nil => exact dropWhile_eq_self_of_all hall
      | cons v vs =>
          have : joinWords (w :: v :: vs) = w ++ ' ' :: joinWords (v :: vs) := rfl
          rw [this]
          exact dropWhile_append_of_ne_nil hw.1 (dropWhile_eq_self_of_all hall) _

lemma dropWhile_reverse_joinWords :
    ∀ ws : List PyStr, (∀ w ∈ ws, goodWord w) →
      (joinWords ws).reverse.dropWhile Char.isWhitespace
        = (joinWords ws).reverse := by
  intro ws
  induction ws with
  | nil => intro _; rfl
  | cons w vs ih =>
      intro hgood
      have hw := hgood w (by simp)
      have hall : ∀ c ∈ w.reverse, ¬ c.isWhitespace = true := by
        intro c hc
        exact hw.2 c (List.mem_reverse.mp hc)
      cases vs with
      | nil => exact dropWhile_eq_self_of_all hall
      | cons v vs =>
          have hgood' : ∀ u ∈ v :: vs, goodWord u := by
            intro u hu
            exact hgood u (by simp [hu])
          have hJ : joinWords (v :: vs) ≠ [] := joinWords_ne_nil (by simp) hgood'
          have hrev : (joinWords (v :: vs)).reverse ≠ [] := by
            simpa using hJ
          have heq : joinWords (w :: v :: vs) = w ++ ' ' :: joinWords (v :: vs) := rfl
          rw [heq, List.reverse_append, List.reverse_cons, List.append_assoc]
          exact dropWhile_append_of_ne_nil hrev (ih hgood') _

/-- `str.strip()` is the identity on a join of nonempty whitespace-free words. -/
lemma pyStrip_joinWords {ws : List PyStr}
    (hgood : ∀ w ∈ ws, goodWord w) : pyStrip (joinWords ws) = joinWords ws := by
  unfold pyStrip
  rw [dropWhile_joinWords hgood, dropWhile_reverse_joinWords ws hgood,
    List.reverse_reverse]

lemma map_joinWords {f : Char → Char} (hf : f ' ' = ' ') :
    ∀ ws : List PyStr, (joinWords ws).map f = joinWords (ws.map (List.map f))
  | [] => rfl
  | [w] => rfl
  | w :: v :: vs => by
      have : joinWords (w :: v :: vs) = w ++ ' ' :: joinWords (v :: vs) := rfl
      rw [this]
      simp only [List.map_append, List.map_cons, hf, map_joinWords hf (v :: vs)]
      rfl

lemma subChar_eq_comp (c : Char) :
    (if (if c = '|' then 'I' else c) = '0' then 'O'
      else (if c = '|' then 'I' else c)) = subChar c := by
  by_cases h1 : c = '|'
  · simp [subChar, h1]
  · by_cases h2 : c = '0'
    · simp [subChar, h1, h2]
    · simp [subChar, h1, h2]

lemma goodWord_map_subChar {w : PyStr} (h : goodWord w) :
    goodWord (w.map subChar) := by
  constructor
  · simpa using h.1
  · intro c hc
    rcases List.mem_map.mp hc with ⟨a, ha, rfl⟩
    have hna := h.2 a ha
    unfold subChar
    by_cases h1 : a = '|'
    · simp [h1]
    · by_cases h2 : a = '0'
      · simp [h1, h2]
      · simpa [h1, h2] using hna

/-- C3 (counterexample): on input `"10"` the cleaner does not leave the
non-whitespace characters unchanged; the digit `'0'` is rewritten to `'O'`. -/
theorem clean_text_not_whitespace_only :
    clean_text (pyOf "10") = pyOf "1O" ∧
      (clean_text (pyOf "10")).filter (fun c => !c.isWhitespace) ≠
        (pyOf "10").filter (fun c => !c.isWhitespace) := by
  constructor
  · decide
  · decide

/-- C3 (amended): `clean_text` collapses each run of whitespace to a single
space and trims the ends, but additionally substitutes `'|' ↦ 'I'` and
`'0' ↦ 'O'` on every character: the result is exactly the space-join of the
whitespace-delimited words of the input, each word mapped by `subChar`, and
those words are nonempty and whitespace-free. -/
theorem clean_text_characterization (s : PyStr) :
    clean_text s = joinWords ((pySplit s).map (List.map subChar)) ∧
      ∀ w ∈ pySplit s, w ≠ [] ∧ ∀ c ∈ w, ¬ c.isWhitespace := by
  refine ⟨?_, fun w hw => pySplit_goodWord s w hw⟩
  by_cases hs : s = []
  · subst hs
    rfl
  · unfold clean_text
    rw [if_neg hs, List.map_map]
    have hmap : ((joinWords (pySplit s)).map
        ((fun c => if c = '0' then 'O' else c) ∘ fun c => if c = '|' then 'I' else c))
        = (joinWords (pySplit s)).map subChar := by
      apply List.map_congr_left
      intro c _
      exact subChar_eq_comp c
    rw [hmap, map_joinWords (by decide) (pySplit s)]
    refine pyStrip_joinWords ?_
    intro w hw
    rcases List.mem_map.mp hw with ⟨u, hu, rfl⟩
    exact goodWord_map_subChar (pySplit_goodWord s u hu)

/-! ## `OCREngine.choose_best_result` (`src/ocr_engine.py` lines 170-193)

The input dict `results : Dict[str, Dict[str, Tuple[str, float]]]` maps a
preprocessing variant to an engine name to a `(text, confidence)` pair; the
embedding keeps the enumeration order of both dict levels as list order. -/

/-- The per-candidate quality score of `choose_best_result`:
`confidence * 0.7 + min(len(text) / 100, 1.0) * 30`. -/
def qualityScore (text : PyStr) (confidence : ℚ) : ℚ :=
  confidence * 0.7 + min ((text.length : ℚ) / 100) 1 * 30

/-- Inner loop of `choose_best_result` over the engines of one preprocessing
variant.  A meaningful candidate replaces the running best exactly when its
quality score strictly exceeds the running best's stored raw confidence. -/
def chooseEngines (preprocessing_type : String) :
    List (String × (PyStr × ℚ)) → PyStr × ℚ × String → PyStr × ℚ × String
  | [], best => best
  | (engine, (text, confidence)) :: rest, best =>
      if is_text_meaningful text then
        if best.2.1 < qualityScore text confidence then
          chooseEngines preprocessing_type rest
            (text, confidence, engine ++ "_" ++ preprocessing_type)
        else chooseEngines preprocessing_type rest best
      else chooseEngines preprocessing_type rest best

/-- Outer loop of `choose_best_result` over the preprocessing variants. -/
def chooseAll :
    List (String × List (String × (PyStr × ℚ))) → PyStr × ℚ × String →
      PyStr × ℚ × String
  | [], best => best
  | (preprocessing_type, engine_results) :: rest, best =>
      chooseAll rest (chooseEngines preprocessing_type engine_results best)

/-- `OCREngine.choose_best_result`: scan all candidates starting from
`("", 0.0, "none")` and return `(best_text, best_confidence, best_method)`. -/
def choose_best_result
    (results : List (String × List (String × (PyStr × ℚ)))) :
    PyStr × ℚ × String :=
  chooseAll results ([], 0, "none")

lemma chooseEngines_sound (pt : String) :
    ∀ (l : List (String × (PyStr × ℚ))) (best : PyStr × ℚ × String),
      chooseEngines pt l best = best ∨
        ∃ e t c, (e, (t, c)) ∈ l ∧ is_text_meaningful t = true ∧
          chooseEngines pt l best = (t, c, e ++ "_" ++ pt) := by
  intro l
  induction l with
  | nil => intro best; exact Or.inl rfl
  | cons hd rest ih =>
      intro best
      obtain ⟨e, t, c⟩ := hd
      by_cases hm : is_text_meaningful t
      · by_cases hq : best.2.1 < qualityScore t c
        · rcases ih (t, c, e ++ "_" ++ pt) with h | ⟨e', t', c', hmem, hm', h⟩
          · refine Or.inr ⟨e, t, c, by simp, hm, ?_⟩
            simpa [chooseEngines, hm, hq] using h
          · refine Or.inr ⟨e', t', c', by simp [hmem], hm', ?_⟩
            simpa [chooseEngines, hm, hq] using h
        · rcases ih best with h | ⟨e', t', c', hmem, hm', h⟩
          · refine Or.inl ?_
            simpa [chooseEngines, hm, hq] using h
          · refine Or.inr ⟨e', t', c', by simp [hmem], hm', ?_⟩
            simpa [chooseEngines, hm, hq] using h
      · rcases ih best with h | ⟨e', t', c', hmem, hm', h⟩
        · refine Or.inl ?_
          simpa [chooseEngines, hm] using h
        · refine Or.inr ⟨e', t', c', by simp [hmem], hm', ?_⟩
          simpa [chooseEngines, hm] using h

lemma chooseAll_sound :
    ∀ (l : List (String × List (String × (PyStr × ℚ))))
      (best : PyStr × ℚ × String),
      chooseAll l best = best ∨
        ∃ pt engines e t c, (pt, engines) ∈ l ∧ (e, (t, c)) ∈ engines ∧
          is_text_meaningful t = true ∧
          chooseAll l best = (t, c, e ++ "_" ++ pt) := by
  intro l
  induction l with
  | nil => intro best; exact Or.inl rfl
  | cons hd rest ih =>
      intro best
      obtain ⟨pt, engines⟩ := hd
      have hstep := chooseEngines_sound pt engines best
      rcases ih (chooseEngines pt engines best) with h | h
      · rcases hstep with h' | ⟨e, t, c, hmem, hm, h'⟩
        · refine Or.inl ?_
          simpa [chooseAll, h'] using h
        · refine Or.inr ⟨pt, engines, e, t, c, by simp, hmem, hm, ?_⟩
          simpa [chooseAll, h'] using h
      · rcases h with ⟨pt', engines', e', t', c', hmem', hmem2', hm', h⟩
        refine Or.inr ⟨pt', engines', e', t', c', by simp [hmem'], hmem2', hm', ?_⟩
        simpa [chooseAll] using h

/-- A ten-character alphanumeric text used in concrete evaluations. -/
def t10 : PyStr := List.replicate 10 'a'

lemma meaningful_replicate_ten : is_text_meaningful t10 = true := by
  unfold is_text_meaningful
  rw [if_neg (by decide), decide_eq_true_eq,
    show ((t10).countP (fun c => c.isAlphanum)) = 10 from by decide,
    show (t10).length = 10 from by decide]
  norm_num

lemma meaningful_hello_world : is_text_meaningful (pyOf "Hello world") = true := by
  unfold is_text_meaningful
  rw [if_neg (by decide), decide_eq_true_eq,
    show ((pyOf "Hello world").countP (fun c => c.isAlphanum)) = 10 from by decide,
    show (pyOf "Hello world").length = 11 from by decide]
  norm_num

lemma quality_replicate_ten (c : ℚ) :
    qualityScore (t10) c = c * 0.7 + 3 := by
  unfold qualityScore
  rw [show (t10).length = 10 from by decide]
  norm_num [min_def]

/-- C1 (counterexample): `choose_best_result` does not return a pair of
maximal quality.  With two candidates of the same ten-character meaningful
text and confidences 5 and 4 (qualities 6.5 and 5.8), the second candidate
replaces the first because its quality 5.8 exceeds the first's stored raw
confidence 5, so the returned pair is the lower-quality one.  Moreover in the
spec's Scenario D the candidate `("Hello", 95)` is discarded by the
meaningfulness filter (length 5 < 10), so `("Hello world", 90)` wins, not B. -/
theorem choose_best_result_not_max_quality :
    choose_best_result
        [("p", [("e1", (t10, (5 : ℚ))),
                ("e2", (t10, (4 : ℚ)))])]
      = (t10, (4 : ℚ), "e2_p") ∧
    qualityScore (t10) 4 <
      qualityScore (t10) 5 ∧
    is_text_meaningful (t10) = true ∧
    choose_best_result
        [("p", [("A", (pyOf "Hello world", (90 : ℚ))),
                ("B", (pyOf "Hello", (95 : ℚ)))])]
      = (pyOf "Hello world", (90 : ℚ), "A_p") := by
  have h1 : ((0 : ℚ)) < qualityScore (t10) 5 := by
    rw [quality_replicate_ten]; norm_num
  have h2 : ((5 : ℚ)) < qualityScore (t10) 4 := by
    rw [quality_replicate_ten]; norm_num
  have hD : ((0 : ℚ)) < qualityScore (pyOf "Hello world") 90 := by
    unfold qualityScore
    rw [show (pyOf "Hello world").length = 11 from by decide]
    norm_num [min_def]
  refine ⟨?_, ?_, meaningful_replicate_ten, ?_⟩
  · simp [choose_best_result, chooseAll, chooseEngines,
      meaningful_replicate_ten, h1, h2]
  · rw [quality_replicate_ten, quality_replicate_ten]; norm_num
  · simp [choose_best_result, chooseAll, chooseEngines,
      meaningful_hello_world, hD,
      show is_text_meaningful (pyOf "Hello") = false from by decide]

/-- C1 (amended): `choose_best_result` scans the candidates in enumeration
order and replaces the incumbent exactly when a meaningful candidate's
quality score strictly exceeds the incumbent's stored raw confidence (not
the incumbent's quality), so it is sound — the result is `("", 0, "none")`
or an actual meaningful candidate `(text, confidence)` of the input with
method `engine_variant` — but it need not return a maximal-quality pair;
and in Scenario D adapter A's `("Hello world", 90)` wins because
`("Hello", 95)` fails the meaningfulness filter. -/
theorem choose_best_result_sound :
    (∀ results : List (String × List (String × (PyStr × ℚ))),
      choose_best_result results = ([], 0, "none") ∨
        ∃ pt engines e t c, (pt, engines) ∈ results ∧ (e, (t, c)) ∈ engines ∧
          is_text_meaningful t = true ∧
          choose_best_result results = (t, c, e ++ "_" ++ pt)) ∧
    choose_best_result
        [("p", [("A", (pyOf "Hello world", (90 : ℚ))),
                ("B", (pyOf "Hello", (95 : ℚ)))])]
      = (pyOf "Hello world", (90 : ℚ), "A_p") := by
  constructor
  · intro results
    exact chooseAll_sound results ([], 0, "none")
  · have hD : ((0 : ℚ)) < qualityScore (pyOf "Hello world") 90 := by
      unfold qualityScore
      rw [show (pyOf "Hello world").length = 11 from by decide]
      norm_num [min_def]
    simp [choose_best_result, chooseAll, chooseEngines,
      meaningful_hello_world, hD,
      show is_text_meaningful (pyOf "Hello") = false from by decide]

lemma meaningful_ne_nil {t : PyStr} (h : is_text_meaningful t = true) :
    t ≠ [] := by
  intro hnil
  subst hnil
  simp [is_text_meaningful] at h

/-- C2 (counterexample): over an arbitrary input mapping the equivalence
`best_confidence = 0 ↔ best_text = ""` fails: a meaningful ten-character
candidate with confidence 0 has quality score 3 > 0, is selected, and is
returned with nonempty text and confidence 0. -/
theorem choose_best_result_zero_conf_nonempty_text :
    choose_best_result [("p", [("e", (t10, (0 : ℚ)))])] = (t10, 0, "e_p") ∧
      ¬(((choose_best_result [("p", [("e", (t10, (0 : ℚ)))])]).2.1 = 0) ↔
        (choose_best_result [("p", [("e", (t10, (0 : ℚ)))])]).1 = []) := by
  have h0 : ((0 : ℚ)) < qualityScore t10 0 := by
    rw [quality_replicate_ten]; norm_num
  have heval : choose_best_result [("p", [("e", (t10, (0 : ℚ)))])]
      = (t10, 0, "e_p") := by
    simp [choose_best_result, chooseAll, chooseEngines,
      meaningful_replicate_ten, h0]
  refine ⟨heval, ?_⟩
  rw [heval]
  simp [t10]

/-- C2 (amended): `best_text = "" → best_confidence = 0` holds
unconditionally, and the full equivalence `best_confidence = 0 ↔
best_text = ""` holds provided every meaningful candidate pair of the input
mapping carries a strictly positive confidence (as the two engine adapters
guarantee for the candidates they emit). -/
theorem choose_best_result_conf_zero_iff
    (results : List (String × List (String × (PyStr × ℚ)))) :
    ((choose_best_result results).1 = [] →
      (choose_best_result results).2.1 = 0) ∧
    ((∀ pt engines e t c, (pt, engines) ∈ results →
        (e, (t, c)) ∈ engines → is_text_meaningful t = true → 0 < c) →
      ((choose_best_result results).2.1 = 0 ↔
        (choose_best_result results).1 = [])) := by
  rcases chooseAll_sound results ([], 0, "none") with h |
    ⟨pt, engines, e, t, c, h1, h2, hm, h⟩
  · constructor
    · intro _
      unfold choose_best_result
      rw [h]
    · intro _
      unfold choose_best_result
      rw [h]
      simp
  · have ht : t ≠ [] := meaningful_ne_nil hm
    constructor
    · intro hnil
      exfalso
      apply ht
      unfold choose_best_result at hnil
      rw [h] at hnil
      exact hnil
    · intro hpos
      unfold choose_best_result
      rw [h]
      have hc : (0 : ℚ) < c := hpos pt engines e t c h1 h2 hm
      exact iff_of_false (by simpa using ne_of_gt hc) ht

/-- Witness for `choose_best_result_conf_zero_iff` at a concrete
one-candidate mapping with positive confidence: both the unconditional
direction and the equivalence under the discharged positivity hypothesis. -/
theorem choose_best_result_conf_zero_iff_witness :
    (∀ pt engines e t c,
        (pt, engines) ∈ [("p", [("e", (t10, (5 : ℚ)))])] →
        (e, (t, c)) ∈ engines → is_text_meaningful t = true → 0 < c) ∧
      (((choose_best_result [("p", [("e", (t10, (5 : ℚ)))])]).1 = [] →
          (choose_best_result [("p", [("e", (t10, (5 : ℚ)))])]).2.1 = 0) ∧
        ((choose_best_result [("p", [("e", (t10, (5 : ℚ)))])]).2.1 = 0 ↔
          (choose_best_result [("p", [("e", (t10, (5 : ℚ)))])]).1 = [])) := by
  have hpos : ∀ pt engines e t c,
      (pt, engines) ∈ [("p", [("e", (t10, (5 : ℚ)))])] →
      (e, (t, c)) ∈ engines → is_text_meaningful t = true → 0 < c := by
    intro pt engines e t c h1 h2 _
    simp at h1
    obtain ⟨rfl, rfl⟩ := h1
    simp at h2
    obtain ⟨rfl, rfl, rfl⟩ := h2
    norm_num
  exact ⟨hpos,
    (choose_best_result_conf_zero_iff [("p", [("e", (t10, (5 : ℚ)))])]).1,
    (choose_best_result_conf_zero_iff [("p", [("e", (t10, (5 : ℚ)))])]).2 hpos⟩

/-! ## `OCREngine.extract_with_easyocr` (`src/ocr_engine.py` lines 99-131)

The reader's detections are embedded as `(text, confidence)` pairs (the
bounding box is unused by the code).  Only the success path is modelled: the
adapter's own `except` clause returns `("", 0.0)`. -/

/-- Detection loop of `extract_with_easyocr`: keep a detection exactly when
its confidence is strictly greater than `0.1`, appending the stripped text
and the confidence rescaled by `100` to the two accumulator lists. -/
def easyocrLoop : List (PyStr × ℚ) → List PyStr × List ℚ → List PyStr × List ℚ
  | [], acc => acc
  | (text, confidence) :: rest, (ts, cs) =>
      if (0.1 : ℚ) < confidence then
        easyocrLoop rest (ts ++ [pyStrip text], cs ++ [confidence * 100])
      else easyocrLoop rest (ts, cs)

/-- `OCREngine.extract_with_easyocr` success path: filter the detections,
join the kept texts with spaces, clean the joined text, and average the kept
rescaled confidences (`0.0` when none is kept). -/
def extract_with_easyocr (detections : List (PyStr × ℚ)) : PyStr × ℚ :=
  let acc := easyocrLoop detections ([], [])
  let full_text := joinWords acc.1
  let avg_confidence :=
    if acc.2 = [] then 0 else acc.2.sum / (acc.2.length : ℚ)
  (clean_text full_text, avg_confidence)

/-- The confidence aggregation as claim C7 states it: discard exactly the
detections whose confidence is below `0.10` (keeping a detection equal to
the threshold), rescale by `100`, and average. -/
def easyocrConfidenceClaimed (detections : List (PyStr × ℚ)) : ℚ :=
  let kept := detections.filter (fun x => decide (¬ (x.2 < 0.1)))
  if kept = [] then 0
  else (kept.map (fun x => x.2 * 100)).sum / (kept.length : ℚ)

lemma easyocrLoop_spec :
    ∀ (d : List (PyStr × ℚ)) (ts : List PyStr) (cs : List ℚ),
      easyocrLoop d (ts, cs) =
        (ts ++ (d.filter (fun x => decide ((0.1 : ℚ) < x.2))).map
            (fun x => pyStrip x.1),
          cs ++ (d.filter (fun x => decide ((0.1 : ℚ) < x.2))).map
            (fun x => x.2 * 100)) := by
  intro d
  induction d with
  | nil => intro ts cs; simp [easyocrLoop]
  | cons hd rest ih =>
      intro ts cs
      obtain ⟨t, c⟩ := hd
      by_cases hc : (0.1 : ℚ) < c
      · simp [easyocrLoop, hc, ih]
      · simp [easyocrLoop, hc, ih]

/-- C7 (counterexample): a detection with confidence exactly `0.10` is
discarded by the code (strict `> 0.1`), so the final confidence is `0`; the
claim's rule (discard only confidences below `0.10`) would keep it and
report the mean `10`. -/
theorem extract_with_easyocr_boundary :
    (extract_with_easyocr [(pyOf "hello", (1/10 : ℚ))]).2 = 0 ∧
      easyocrConfidenceClaimed [(pyOf "hello", (1/10 : ℚ))] = 10 ∧
      (0 : ℚ) ≠ 10 := by
  refine ⟨?_, ?_, by norm_num⟩
  · norm_num [extract_with_easyocr, easyocrLoop]
  · norm_num [easyocrConfidenceClaimed]

/-- C7 (amended): the code discards exactly the detections whose confidence
is at most `0.10` (strictly below or equal to the threshold), rescales each
kept confidence by `100`, and returns the arithmetic mean of the kept
rescaled confidences, `0` when no detection is kept. -/
theorem extract_with_easyocr_confidence (detections : List (PyStr × ℚ)) :
    (extract_with_easyocr detections).2 =
      (if detections.filter (fun x => decide ((0.1 : ℚ) < x.2)) = [] then 0
       else ((detections.filter (fun x => decide ((0.1 : ℚ) < x.2))).map
          (fun x => x.2 * 100)).sum /
        (((detections.filter (fun x => decide ((0.1 : ℚ) < x.2))).length : ℚ))) := by
  unfold extract_with_easyocr
  rw [easyocrLoop_spec detections [] []]
  simp only [List.nil_append]
  by_cases h : detections.filter (fun x => decide ((0.1 : ℚ) < x.2)) = []
  · simp [h]
  · have hmap : (detections.filter (fun x => decide ((0.1 : ℚ) < x.2))).map
        (fun x => x.2 * 100) ≠ [] := by
      simpa using h
    simp [h, hmap]

/-! ## `preprocess_image` (`src/utils.py` lines 41-55)

The four step implementations (`deskew_image`, `remove_noise`,
`enhance_contrast`, `enhance_lines`) are OpenCV/PIL numerical code and are
parameters of the embedding; each may raise, which is modelled by an
`Except` result.  `preprocess_image` itself contains no `try`/`except`. -/

/-- The dispatch performed by one iteration of the `preprocess_image` loop:
a recognized operation name runs its step, any other name leaves the image
unchanged. -/
def preprocessStep {Img E : Type}
    (deskew_image remove_noise enhance_contrast enhance_lines :
      Img → Except E Img) (operation : String) (processed : Img) :
    Except E Img :=
  if operation = "deskew" then deskew_image processed
  else if operation = "noise_removal" then remove_noise processed
  else if operation = "contrast_enhancement" then enhance_contrast processed
  else if operation = "line_detection" then enhance_lines processed
  else .ok processed

/-- `preprocess_image`: fold the steps over the operation list.  There is no
error handling in the source, so a failing step's exception propagates. -/
def preprocess_image {Img E : Type}
    (deskew_image remove_noise enhance_contrast enhance_lines :
      Img → Except E Img) (image : Img) :
    List String → Except E Img
  | [] => .ok image
  | operation :: rest =>
      (preprocessStep deskew_image remove_noise enhance_contrast enhance_lines
          operation image).bind
        (fun p => preprocess_image deskew_image remove_noise enhance_contrast
          enhance_lines p rest)

/-- C8 (counterexample): with a failing `deskew` step the pipeline raises
(returns the step's exception) instead of returning any image, so
`preprocess_image` is not total and does not return the best image obtained
before the failing step. -/
theorem preprocess_image_error_counterexample :
    preprocess_image (fun _ : ℕ => (Except.error () : Except Unit ℕ))
        (fun i => .ok i) (fun i => .ok i) (fun i => .ok i) 0 ["deskew"]
      = .error () ∧
    ∀ img : ℕ, (Except.error () : Except Unit ℕ) ≠ .ok img := by
  constructor
  · rfl
  · intro img h
    cases h

/-- C8 (amended): `preprocess_image` applies the recognized steps in order
(unrecognized names are skipped); it contains no error handling, so when the
steps up to some point succeed and the next recognized step fails, the
pipeline returns that step's exception rather than the best image obtained
so far. -/
theorem preprocess_image_propagates {Img E : Type}
    (deskew_image remove_noise enhance_contrast enhance_lines :
      Img → Except E Img)
    (ops₁ ops₂ : List String) (op : String) (img mid : Img) (e : E)
    (h1 : preprocess_image deskew_image remove_noise enhance_contrast
      enhance_lines img ops₁ = .ok mid)
    (h2 : preprocessStep deskew_image remove_noise enhance_contrast
      enhance_lines op mid = .error e) :
    preprocess_image deskew_image remove_noise enhance_contrast enhance_lines
      img (ops₁ ++ op :: ops₂) = .error e := by
  induction ops₁ generalizing img with
  | nil =>
      have : img = mid := by
        simpa [preprocess_image] using h1
      subst this
      simp [preprocess_image, h2, Except.bind]
  | cons o rest ih =>
      rw [List.cons_append]
      unfold preprocess_image at h1 ⊢
      cases hstep : preprocessStep deskew_image remove_noise enhance_contrast
          enhance_lines o img with
      | error e' =>
          rw [hstep] at h1
          cases h1
      | ok p =>
          rw [hstep] at h1
          simpa using ih p (by simpa using h1)

/-- Witness for `preprocess_image_propagates`: an empty successful prefix
followed by a failing `deskew` step. -/
theorem preprocess_image_propagates_witness :
    preprocess_image (fun _ : ℕ => (Except.error 3 : Except ℕ ℕ))
        (fun i => .ok i) (fun i => .ok i) (fun i => .ok i) 5 [] = .ok 5 ∧
    preprocessStep (fun _ : ℕ => (Except.error 3 : Except ℕ ℕ))
        (fun i => .ok i) (fun i => .ok i) (fun i => .ok i) "deskew" 5
      = .error 3 ∧
    preprocess_image (fun _ : ℕ => (Except.error 3 : Except ℕ ℕ))
        (fun i => .ok i) (fun i => .ok i) (fun i => .ok i) 5
        ([] ++ "deskew" :: []) = .error 3 :=
  ⟨rfl, rfl, preprocess_image_propagates _ _ _ _ [] [] "deskew" 5 5 3 rfl rfl⟩

/-! ## `PDFProcessor.analyze_page_content` (`src/pdf_processor.py` lines 113-158)

The three sub-probes (native text via `extract_page_text_native`, table
detection via `pdfplumber`, image enumeration via PyMuPDF) are embedded as
`Except`-valued inputs; the whole body sits in one `try` whose handler
returns the degraded record.  The image probe runs only when the PyMuPDF
document is present, otherwise `images = []`. -/

/-- The optional detail fields present only in the full (non-degraded)
record returned by `analyze_page_content`. -/
structure PageDetails where
  native_text_length : ℕ
  has_tables : Bool
  table_count : ℕ
  has_images : Bool
  image_count : ℕ
deriving DecidableEq

/-- The record returned by `analyze_page_content`: the degraded shape keeps
only `page_num`, `content_type` and `needs_ocr` (`details = none`). -/
structure PageAnalysis where
  page_num : ℕ
  content_type : String
  needs_ocr : Bool
  details : Option PageDetails
deriving DecidableEq

/-- `PDFProcessor.analyze_page_content`: classify the page content with the
precedence table → image → mixed → text against
`Config.MIN_TEXT_LENGTH`; any probe failure is caught and degrades to
`{content_type: "mixed", needs_ocr: true}`. -/
def analyze_page_content {E A B : Type} (page_num : ℕ)
    (nativeProbe : Except E PyStr) (tablesProbe : Except E (List A))
    (imagesProbe : Except E (List B)) (hasPymupdf : Bool) : PageAnalysis :=
  match nativeProbe with
  | .error _ => ⟨page_num, "mixed", true, none⟩
  | .ok native_text =>
      match tablesProbe with
      | .error _ => ⟨page_num, "mixed", true, none⟩
      | .ok tables =>
          match (if hasPymupdf then imagesProbe else .ok []) with
          | .error _ => ⟨page_num, "mixed", true, none⟩
          | .ok images =>
              let nlen := (pyStrip native_text).length
              let content_type :=
                if tables.isEmpty = false then "table"
                else if images.isEmpty = false ∧
                    nlen < Config.MIN_TEXT_LENGTH then "image"
                else if nlen < Config.MIN_TEXT_LENGTH then "mixed"
                else "text"
              ⟨page_num, content_type, decide (nlen < Config.MIN_TEXT_LENGTH),
                some ⟨nlen, decide (0 < tables.length), tables.length,
                  decide (0 < images.length), images.length⟩⟩

/-- C4 (confirmed): when all sub-probes succeed, `content_type` follows the
precedence tables → `"table"`, else images and short native text →
`"image"`, else short native text → `"mixed"`, else `"text"`, where short
means stripped native-text length below `Config.MIN_TEXT_LENGTH = 10`; and
`needs_ocr` equals that same length test regardless of the branch taken. -/
theorem analyze_page_content_classification {A B : Type} (page_num : ℕ)
    (native : PyStr) (tables : List A) (images : List B)
    (hasPymupdf : Bool) :
    (analyze_page_content (E := Unit) page_num (.ok native) (.ok tables)
        (.ok images) hasPymupdf).content_type =
      (if tables.isEmpty = false then "table"
       else if (if hasPymupdf then images else []).isEmpty = false ∧
          (pyStrip native).length < Config.MIN_TEXT_LENGTH then "image"
       else if (pyStrip native).length < Config.MIN_TEXT_LENGTH then "mixed"
       else "text") ∧
    (analyze_page_content (E := Unit) page_num (.ok native) (.ok tables)
        (.ok images) hasPymupdf).needs_ocr =
      decide ((pyStrip native).length < Config.MIN_TEXT_LENGTH) := by
  cases hasPymupdf with
  | false => exact ⟨rfl, rfl⟩
  | true => exact ⟨rfl, rfl⟩

/-- C9 (confirmed): if any sub-probe raises (native text, tables, or — when
the PyMuPDF document is present — images), `analyze_page_content` returns
the degraded record `{page_num, content_type: "mixed", needs_ocr: true}`
instead of propagating the exception. -/
theorem analyze_page_content_degrades {E A B : Type} (page_num : ℕ)
    (nativeProbe : Except E PyStr) (tablesProbe : Except E (List A))
    (imagesProbe : Except E (List B)) (hasPymupdf : Bool)
    (h : (∃ e, nativeProbe = .error e) ∨ (∃ e, tablesProbe = .error e) ∨
      (hasPymupdf = true ∧ ∃ e, imagesProbe = .error e)) :
    analyze_page_content page_num nativeProbe tablesProbe imagesProbe
      hasPymupdf = ⟨page_num, "mixed", true, none⟩ := by
  rcases h with ⟨e, he⟩ | ⟨e, he⟩ | ⟨hdoc, e, he⟩
  · simp [analyze_page_content, he]
  · cases nativeProbe with
    | error _ => simp [analyze_page_content]
    | ok native => simp [analyze_page_content, he]
  · subst hdoc
    cases nativeProbe with
    | error _ => simp [analyze_page_content]
    | ok native =>
        cases tablesProbe with
        | error _ => simp [analyze_page_content]
        | ok tables => simp [analyze_page_content, he]

/-- Witness for `analyze_page_content_degrades`: a failing native-text probe
on page 7. -/
theorem analyze_page_content_degrades_witness :
    ((∃ e : Unit, (Except.error () : Except Unit PyStr) = .error e) ∨
      (∃ e, (Except.ok [] : Except Unit (List Unit)) = .error e) ∨
      (true = true ∧ ∃ e, (Except.ok [] : Except Unit (List Unit)) = .error e)) ∧
    analyze_page_content 7 (Except.error () : Except Unit PyStr)
        (Except.ok [] : Except Unit (List Unit))
        (Except.ok [] : Except Unit (List Unit)) true
      = ⟨7, "mixed", true, none⟩ :=
  ⟨Or.inl ⟨(), rfl⟩,
    analyze_page_content_degrades 7 _ _ _ true (Or.inl ⟨(), rfl⟩)⟩

/-! ## `OCREngine.batch_extract` and `PDFProcessor.process_pages_parallel`
(`src/ocr_engine.py` lines 238-281, `src/pdf_processor.py` lines 178-204)

Thread-pool completion order is modelled as an input list `order` of task
indices (any permutation of `range N`); each completed future's
`result()` is an `Except`-valued outcome.  `batch_extract` appends a record
for every task (a failure record when the future raised), then sorts by
`page_index`; `process_pages_parallel` skips failed futures, then sorts by
`page_num`.  Python's stable `list.sort(key=...)` is embedded as
`List.insertionSort` over the key order. -/

/-- The dict built by `OCREngine.extract_text_comprehensive`
(`src/ocr_engine.py` lines 221-230). -/
structure FinalResult where
  text : PyStr
  confidence : ℚ
  method : String
  processing_time : ℚ
  all_results : List (String × List (String × (PyStr × ℚ)))
  text_length : ℕ
  is_meaningful : Bool
  document_type : String
deriving DecidableEq

/-- One element of the list built by `batch_extract`: the page index paired
with either the comprehensive result or the error string of a failed task. -/
abbrev BatchItem := ℕ × (FinalResult ⊕ String)

/-- The record `batch_extract` appends for the completed future of image
`i`: the result dict extended with `page_index`, or the failure record. -/
def batchRecord (outcome : ℕ → Except String FinalResult) (i : ℕ) :
    BatchItem :=
  match outcome i with
  | .ok r => (i, .inl r)
  | .error e => (i, .inr e)

/-- `OCREngine.batch_extract`: collect records in completion order, then
`results.sort(key=lambda x: x['page_index'])`. -/
def batch_extract (outcome : ℕ → Except String FinalResult)
    (order : List ℕ) : List BatchItem :=
  List.insertionSort (fun a b => a.1 ≤ b.1) (order.map (batchRecord outcome))

/-- `PDFProcessor.process_pages_parallel`: collect the successful page
analyses in completion order (a raised future is only logged), then
`pages_info.sort(key=lambda x: x['page_num'])`. -/
def process_pages_parallel (outcome : ℕ → Except String PageAnalysis)
    (order : List ℕ) : List PageAnalysis :=
  List.insertionSort (fun a b => a.page_num ≤ b.page_num)
    (order.filterMap (fun i => (outcome i).toOption))

instance : IsTotal BatchItem (fun a b => a.1 ≤ b.1) :=
  ⟨fun a b => Nat.le_total a.1 b.1⟩

instance : IsTrans BatchItem (fun a b => a.1 ≤ b.1) :=
  ⟨fun _ _ _ h1 h2 => Nat.le_trans h1 h2⟩

instance : IsTotal PageAnalysis (fun a b => a.page_num ≤ b.page_num) :=
  ⟨fun a b => Nat.le_total a.page_num b.page_num⟩

instance : IsTrans PageAnalysis (fun a b => a.page_num ≤ b.page_num) :=
  ⟨fun _ _ _ h1 h2 => Nat.le_trans h1 h2⟩

lemma batchRecord_fst (outcome : ℕ → Except String FinalResult) (i : ℕ) :
    (batchRecord outcome i).1 = i := by
  unfold batchRecord
  cases outcome i with
  | ok r => rfl
  | error e => rfl

/-- C5 (confirmed): for every completion order that is a permutation of the
`N` task indices, `batch_extract` returns exactly one record per page in
ascending page-index order (its index projection is `range N`), and
`process_pages_parallel` returns a list sorted ascending by `page_num`. -/
theorem batch_results_sorted (outcome : ℕ → Except String FinalResult)
    (outcomeA : ℕ → Except String PageAnalysis) (N : ℕ) (order : List ℕ)
    (horder : order.Perm (List.range N)) :
    (batch_extract outcome order).map Prod.fst = List.range N ∧
      List.Sorted (fun a b => a ≤ b)
        ((process_pages_parallel outcomeA order).map PageAnalysis.page_num) := by
  constructor
  · have hperm : (batch_extract outcome order).Perm
        (order.map (batchRecord outcome)) :=
      List.perm_insertionSort _ _
    have hmap : (order.map (batchRecord outcome)).map Prod.fst = order := by
      rw [List.map_map]
      have : (Prod.fst ∘ batchRecord outcome) = id := by
        funext i
        exact batchRecord_fst outcome i
      rw [this, List.map_id]
    have hperm2 : ((batch_extract outcome order).map Prod.fst).Perm
        (List.range N) := by
      refine ((hperm.map Prod.fst).trans ?_)
      rw [hmap]
      exact horder
    have hsorted : List.Sorted (fun a b => a ≤ b)
        ((batch_extract outcome order).map Prod.fst) := by
      have hs := List.sorted_insertionSort (fun a b : BatchItem => a.1 ≤ b.1)
        (order.map (batchRecord outcome))
      exact List.Pairwise.map Prod.fst (fun a b h => h) hs
    exact List.eq_of_perm_of_sorted hperm2 hsorted (List.sorted_le_range N)
  · have hs := List.sorted_insertionSort
      (fun a b : PageAnalysis => a.page_num ≤ b.page_num)
      (order.filterMap (fun i => (outcomeA i).toOption))
    exact List.Pairwise.map PageAnalysis.page_num (fun a b h => h) hs

/-- Witness for `batch_results_sorted`: three tasks completing in the order
2, 0, 1. -/
theorem batch_results_sorted_witness :
    ([2, 0, 1].Perm (List.range 3)) ∧
      ((batch_extract (fun _ => .error "x") [2, 0, 1]).map Prod.fst
          = List.range 3 ∧
        List.Sorted (fun a b => a ≤ b)
          ((process_pages_parallel (fun _ => .error "x") [2, 0, 1]).map
            PageAnalysis.page_num)) :=
  ⟨by decide,
    batch_results_sorted (fun _ => .error "x") (fun _ => .error "x") 3
      [2, 0, 1] (by decide)⟩

/-! ## The cache (`src/utils.py` lines 23-39, `src/ocr_engine.py` lines 195-236)

`extract_text_comprehensive` stores `str(final_result)` in a file named by
the MD5 key and reads it back with `eval`.  The embedding keeps the cache
directory as a map from key to file contents (`PyStr`), and models the
`str`/`eval` pair by an injective encoding `encFinal` of `FinalResult` with
its verified partial inverse `decFinal` (a cached string `eval` cannot
rebuild is an exception, `Except.error`). -/

/-- Serialize a natural number: a unary run of `'I'` closed by `';'`. -/
def encNat (n : ℕ) : PyStr := List.replicate n 'I' ++ [';']

/-- Parse back a natural number, returning the unconsumed remainder. -/
def decNat (l : PyStr) : Option (ℕ × PyStr) :=
  match l.dropWhile (fun c => c = 'I') with
  | ';' :: rest => some ((l.takeWhile (fun c => c = 'I')).length, rest)
  | _ => none

lemma decNat_encNat (n : ℕ) (rest : PyStr) :
    decNat (encNat n ++ rest) = some (n, rest) := by
  have htake : (List.replicate n 'I' ++ ';' :: rest).takeWhile
      (fun c => c = 'I') = List.replicate n 'I' := by
    induction n with
    | zero => simp [List.takeWhile]
    | succ k ih => simp [List.replicate_succ, List.takeWhile_cons, ih]
  have hdrop : (List.replicate n 'I' ++ ';' :: rest).dropWhile
      (fun c => c = 'I') = ';' :: rest := by
    induction n with
    | zero => simp [List.dropWhile]
    | succ k ih => simp [List.replicate_succ, List.dropWhile_cons, ih]
  unfold decNat encNat
  rw [List.append_assoc, List.cons_append, List.nil_append, hdrop, htake]
  simp

/-- Serialize an integer: a sign tag followed by the magnitude. -/
def encInt (i : ℤ) : PyStr :=
  match i with
  | .ofNat n => encNat 0 ++ encNat n
  | .negSucc n => encNat 1 ++ encNat n

/-- Parse back an integer. -/
def decInt (l : PyStr) : Option (ℤ × PyStr) :=
  match decNat l with
  | some (tag, r) =>
      match decNat r with
      | some (n, r') =>
          some (if tag = 0 then (n : ℤ) else Int.negSucc n, r')
      | none => none
  | none => none

lemma decInt_encInt (i : ℤ) (rest : PyStr) :
    decInt (encInt i ++ rest) = some (i, rest) := by
  cases i with
  | ofNat n => simp [encInt, decInt, List.append_assoc, decNat_encNat]
  | negSucc n => simp [encInt, decInt, List.append_assoc, decNat_encNat]

/-- Serialize a rational: numerator then denominator. -/
def encQ (q : ℚ) : PyStr := encInt q.num ++ encNat q.den

/-- Parse back a rational. -/
def decQ (l : PyStr) : Option (ℚ × PyStr) :=
  match decInt l with
  | some (n, r) =>
      match decNat r with
      | some (d, r') => some ((n : ℚ) / (d : ℚ), r')
      | none => none
  | none => none

lemma decQ_encQ (q : ℚ) (rest : PyStr) :
    decQ (encQ q ++ rest) = some (q, rest) := by
  simp [encQ, decQ, List.append_assoc, decInt_encInt, decNat_encNat,
    Rat.num_div_den]

/-- Serialize a character list: its length, then the raw characters. -/
def encPyStr (s : PyStr) : PyStr := encNat s.length ++ s

/-- Parse back a character list. -/
def decPyStr (l : PyStr) : Option (PyStr × PyStr) :=
  match decNat l with
  | some (n, r) => some (r.take n, r.drop n)
  | none => none

lemma decPyStr_encPyStr (s : PyStr) (rest : PyStr) :
    decPyStr (encPyStr s ++ rest) = some (s, rest) := by
  simp [encPyStr, decPyStr, List.append_assoc, decNat_encNat,
    List.take_left, List.drop_left]

/-- Serialize a `String` through its character list. -/
def encString (s : String) : PyStr := encPyStr s.data

/-- Parse back a `String`. -/
def decString (l : PyStr) : Option (String × PyStr) :=
  match decPyStr l with
  | some (d, r) => some (String.mk d, r)
  | none => none

lemma decString_encString (s : String) (rest : PyStr) :
    decString (encString s ++ rest) = some (s, rest) := by
  obtain ⟨d⟩ := s
  simp [encString, decString, decPyStr_encPyStr]

/-- Serialize a boolean as `0` or `1`. -/
def encBool (b : Bool) : PyStr := encNat (cond b 1 0)

/-- Parse back a boolean. -/
def decBool (l : PyStr) : Option (Bool × PyStr) :=
  match decNat l with
  | some (n, r) => some (if n = 0 then false else true, r)
  | none => none

lemma decBool_encBool (b : Bool) (rest : PyStr) :
    decBool (encBool b ++ rest) = some (b, rest) := by
  cases b with
  | false => simp [encBool, decBool, decNat_encNat]
  | true => simp [encBool, decBool, decNat_encNat]

/-- Serialize a list: its length, then the serialized elements in order. -/
def encList (f : α → PyStr) (l : List α) : PyStr :=
  encNat l.length ++ (l.map f).flatten

/-- Parse back exactly `n` elements. -/
def decListN (dec : PyStr → Option (α × PyStr)) :
    ℕ → PyStr → Option (List α × PyStr)
  | 0, l => some ([], l)
  | n + 1, l =>
      match dec l with
      | some (a, r) =>
          match decListN dec n r with
          | some (as, r') => some (a :: as, r')
          | none => none
      | none => none

/-- Parse back a serialized list. -/
def decList (dec : PyStr → Option (α × PyStr)) (l : PyStr) :
    Option (List α × PyStr) :=
  match decNat l with
  | some (n, r) => decListN dec n r
  | none => none

lemma decListN_encList {f : α → PyStr} {dec : PyStr → Option (α × PyStr)}
    (hdec : ∀ a rest, dec (f a ++ rest) = some (a, rest)) :
    ∀ (l : List α) (rest : PyStr),
      decListN dec l.length ((l.map f).flatten ++ rest) = some (l, rest) := by
  intro l
  induction l with
  | nil => intro rest; simp [decListN]
  | cons a as ih =>
      intro rest
      simp only [List.map_cons, List.flatten_cons, List.length_cons,
        List.append_assoc]
      unfold decListN
      rw [hdec]
      simp [ih]

lemma decList_encList {f : α → PyStr} {dec : PyStr → Option (α × PyStr)}
    (hdec : ∀ a rest, dec (f a ++ rest) = some (a, rest))
    (l : List α) (rest : PyStr) :
    decList dec (encList f l ++ rest) = some (l, rest) := by
  simp [encList, decList, List.append_assoc, decNat_encNat,
    decListN_encList hdec]

/-- Serialize one engine entry `(engine, (text, confidence))`. -/
def encEnginePair (p : String × (PyStr × ℚ)) : PyStr :=
  encString p.1 ++ (encPyStr p.2.1 ++ encQ p.2.2)

/-- Parse back one engine entry. -/
def decEnginePair (l : PyStr) : Option ((String × (PyStr × ℚ)) × PyStr) :=
  match decString l with
  | some (e, r1) =>
      match decPyStr r1 with
      | some (t, r2) =>
          match decQ r2 with
          | some (c, r3) => some ((e, (t, c)), r3)
          | none => none
      | none => none
  | none => none

lemma decEnginePair_encEnginePair (p : String × (PyStr × ℚ)) (rest : PyStr) :
    decEnginePair (encEnginePair p ++ rest) = some (p, rest) := by
  obtain ⟨e, t, c⟩ := p
  simp [encEnginePair, decEnginePair, List.append_assoc,
    decString_encString, decPyStr_encPyStr, decQ_encQ]

/-- Serialize one preprocessing variant with its engine entries. -/
def encVariant (v : String × List (String × (PyStr × ℚ))) : PyStr :=
  encString v.1 ++ encList encEnginePair v.2

/-- Parse back one preprocessing variant. -/
def decVariant (l : PyStr) :
    Option ((String × List (String × (PyStr × ℚ))) × PyStr) :=
  match decString l with
  | some (pt, r) =>
      match decList decEnginePair r with
      | some (es, r') => some ((pt, es), r')
      | none => none
  | none => none

lemma decVariant_encVariant (v : String × List (String × (PyStr × ℚ)))
    (rest : PyStr) : decVariant (encVariant v ++ rest) = some (v, rest) := by
  obtain ⟨pt, es⟩ := v
  simp [encVariant, decVariant, List.append_assoc, decString_encString,
    decList_encList decEnginePair_encEnginePair]

/-- Serialize a whole `FinalResult` (the model of `str(final_result)`). -/
def encFinal (r : FinalResult) : PyStr :=
  encPyStr r.text ++ (encQ r.confidence ++ (encString r.method ++
    (encQ r.processing_time ++ (encList encVariant r.all_results ++
      (encNat r.text_length ++ (encBool r.is_meaningful ++
        encString r.document_type))))))

/-- Parse back a whole `FinalResult` (the model of `eval` on a cached
string): the string must be consumed exactly. -/
def decFinal (l : PyStr) : Option FinalResult :=
  match decPyStr l with
  | some (text, r1) =>
      match decQ r1 with
      | some (conf, r2) =>
          match decString r2 with
          | some (method, r3) =>
              match decQ r3 with
              | some (ptime, r4) =>
                  match decList decVariant r4 with
                  | some (results, r5) =>
                      match decNat r5 with
                      | some (tlen, r6) =>
                          match decBool r6 with
                          | some (mean, r7) =>
                              match decString r7 with
                              | some (dt, r8) =>
                                  if r8 = [] then
                                    some ⟨text, conf, method, ptime, results,
                                      tlen, mean, dt⟩
                                  else none
                              | none => none
                          | none => none
                      | none => none
                  | none => none
              | none => none
          | none => none
      | none => none
  | none => none

lemma decString_encString_nil (s : String) :
    decString (encString s) = some (s, []) := by
  have := decString_encString s []
  simpa using this

lemma decFinal_encFinal (r : FinalResult) : decFinal (encFinal r) = some r := by
  obtain ⟨text, conf, method, ptime, results, tlen, mean, dt⟩ := r
  simp [encFinal, decFinal, decPyStr_encPyStr, decQ_encQ,
    decString_encString, decString_encString_nil, decNat_encNat,
    decBool_encBool, decList_encList decVariant_encVariant]

lemma encFinal_ne_nil (r : FinalResult) : encFinal r ≠ [] := by
  simp [encFinal, encPyStr, encNat]

/-- The cache directory: file contents per key (`src/utils.py` keeps one
`{key}.cache` file per key under `Config.CACHE_DIR`). -/
abbrev CacheStore := PyStr → Option PyStr

/-- `save_to_cache` (`src/utils.py` lines 27-31): write `str(data)` to the
key's file. -/
def save_to_cache (key data : PyStr) (store : CacheStore) : CacheStore :=
  fun k => if k = key then some data else store k

/-- `load_from_cache` (`src/utils.py` lines 33-39): the key's file contents
when the file exists, `None` otherwise. -/
def load_from_cache (key : PyStr) (store : CacheStore) : Option PyStr :=
  store key

/-- External collaborators of `OCREngine.extract_text_comprehensive`: the
MD5 hex digest behind `create_cache_key`, `image.tobytes()`, and
`extract_with_preprocessing` (the preprocessing variants with both engine
adapters), which is deterministic in the image and document type. -/
structure OcrEnv (Img : Type) where
  md5 : PyStr → PyStr
  tobytes : Img → PyStr
  extractWithPreprocessing :
    Img → String → List (String × List (String × (PyStr × ℚ)))

/-- The cache key of `extract_text_comprehensive`:
`create_cache_key(f"{image.tobytes()}_{document_type}")`. -/
def cacheKey {Img : Type} (env : OcrEnv Img) (image : Img)
    (document_type : String) : PyStr :=
  env.md5 (env.tobytes image ++ '_' :: document_type.data)

/-- The computation path of `extract_text_comprehensive`
(`src/ocr_engine.py` lines 210-230): run the engines, choose the best
result, and assemble the final dict; the clock readings at entry and at the
end are inputs. -/
def computeComprehensive {Img : Type} (env : OcrEnv Img) (startT endT : ℚ)
    (image : Img) (document_type : String) : FinalResult :=
  let results := env.extractWithPreprocessing image document_type
  let best := choose_best_result results
  { text := best.1
    confidence := best.2.1
    method := best.2.2
    processing_time := endT - startT
    all_results := results
    text_length := best.1.length
    is_meaningful := is_text_meaningful best.1
    document_type := document_type }

/-- `OCREngine.extract_text_comprehensive`: with `use_cache` a nonempty
cached string is `eval`ed and returned (an undecodable one raises,
`Except.error`); otherwise the result is computed and, with `use_cache`,
stored under the key before being returned. -/
def extract_text_comprehensive {Img : Type} (env : OcrEnv Img)
    (startT endT : ℚ) (image : Img) (document_type : String)
    (use_cache : Bool) (store : CacheStore) :
    Except Unit (FinalResult × CacheStore) :=
  let key := cacheKey env image document_type
  let hit : Option PyStr :=
    if use_cache then
      match load_from_cache key store with
      | some s => if s = [] then none else some s
      | none => none
    else none
  match hit with
  | some s =>
      match decFinal s with
      | some r => .ok (r, store)
      | none => .error ()
  | none =>
      let final := computeComprehensive env startT endT image document_type
      let store' :=
        if use_cache then save_to_cache key (encFinal final) store else store
      .ok (final, store')

/-- C6 (confirmed): `load_from_cache` after `save_to_cache` returns the
stored serialization, and with an unchanged image and document type and
`use_cache` a second `extract_text_comprehensive` call returns the cache
hit — a result identical to the first call's, with the store unchanged. -/
theorem extract_cache_round_trip {Img : Type} (env : OcrEnv Img)
    (t1 t2 t3 t4 : ℚ) (image : Img) (document_type : String)
    (store : CacheStore)
    (hmiss : load_from_cache (cacheKey env image document_type) store = none) :
    (∀ (key v : PyStr) (s : CacheStore),
        load_from_cache key (save_to_cache key v s) = some v) ∧
    ∃ r store1,
      extract_text_comprehensive env t1 t2 image document_type true store
          = .ok (r, store1) ∧
        extract_text_comprehensive env t3 t4 image document_type true store1
          = .ok (r, store1) := by
  constructor
  · intro key v s
    simp [load_from_cache, save_to_cache]
  · refine ⟨computeComprehensive env t1 t2 image document_type,
      save_to_cache (cacheKey env image document_type)
        (encFinal (computeComprehensive env t1 t2 image document_type)) store,
      ?_, ?_⟩
    · simp [extract_text_comprehensive, hmiss]
    · simp [extract_text_comprehensive, load_from_cache, save_to_cache,
        encFinal_ne_nil, decFinal_encFinal]

/-- Witness for `extract_cache_round_trip`: a unit image, trivial
collaborators and an empty cache. -/
theorem extract_cache_round_trip_witness :
    (load_from_cache
        (cacheKey (OcrEnv.mk id (fun _ => []) (fun _ _ => []) : OcrEnv Unit)
          () "mixed") (fun _ => none) = none) ∧
    ((∀ (key v : PyStr) (s : CacheStore),
        load_from_cache key (save_to_cache key v s) = some v) ∧
      ∃ r store1,
        extract_text_comprehensive
            (OcrEnv.mk id (fun _ => []) (fun _ _ => []) : OcrEnv Unit)
            0 1 () "mixed" true (fun _ => none) = .ok (r, store1) ∧
          extract_text_comprehensive
              (OcrEnv.mk id (fun _ => []) (fun _ _ => []) : OcrEnv Unit)
              2 3 () "mixed" true store1 = .ok (r, store1)) :=
  ⟨rfl,
    extract_cache_round_trip
      (OcrEnv.mk id (fun _ => []) (fun _ _ => []) : OcrEnv Unit)
      0 1 2 3 () "mixed" (fun _ => none) rfl⟩

/-! ## `SmartPDFOCR._process_single_page` (`src/main.py` lines 185-255)

The collaborators (native extraction, page rendering, comprehensive OCR,
markdown conversion, table extraction) are parameters; the record below
keeps the fields the claims are about (`page_num`, `text`, `confidence`,
`method`, `processing_time`, `content_type`, `ocr_details`). -/

/-- The page record returned by `_process_single_page`. -/
structure PageRecord where
  page_num : ℕ
  text : PyStr
  confidence : ℚ
  method : String
  processing_time : ℚ
  content_type : String
  ocr_details : Option FinalResult
deriving DecidableEq

/-- Collaborators of `_process_single_page`: `extract_page_text_native`
(total — it has its own handler), `convert_page_to_image` (`None` on
failure), `extract_text_comprehensive` (its success value),
`text_to_markdown`, `extract_tables_from_page`, `process_tables_from_data`
and `combine_text_and_tables`. -/
structure PageEnv (Img : Type) where
  extractNative : ℕ → PyStr
  convertPage : ℕ → Option Img
  runOcr : Img → String → FinalResult
  textToMarkdown : PyStr → ℕ → PyStr
  extractTables : ℕ → List (List (List PyStr))
  tablesToMarkdown : List (List (List PyStr)) → PyStr
  combine : PyStr → PyStr → PyStr

/-- `SmartPDFOCR._process_single_page`: native text when it suffices, a
native fallback when rendering fails, otherwise comprehensive OCR with the
longer of OCR and native text — and the OCR result's confidence either
way. -/
def process_single_page {Img : Type} (env : PageEnv Img) (startT endT : ℚ)
    (page_num : ℕ) (content_type : String) (needs_ocr : Bool) : PageRecord :=
  let native_text := env.extractNative page_num
  if needs_ocr = false ∧
      Config.MIN_TEXT_LENGTH ≤ (pyStrip native_text).length then
    ⟨page_num, env.textToMarkdown native_text page_num, 100, "native_text",
      endT - startT, content_type, none⟩
  else
    match env.convertPage page_num with
    | none =>
        ⟨page_num, native_text, if native_text ≠ [] then 50 else 0,
          "native_fallback", endT - startT, content_type, none⟩
    | some image =>
        let ocr_result := env.runOcr image content_type
        let ocr_text := ocr_result.text
        let final_text0 :=
          if native_text.length < ocr_text.length then ocr_text
          else native_text
        let final_method :=
          if native_text.length < ocr_text.length then ocr_result.method
          else "native"
        let final_text1 :=
          if content_type = "table" then
            (let tables := env.extractTables page_num
             if tables.isEmpty = false then
               env.combine final_text0 (env.tablesToMarkdown tables)
             else final_text0)
          else final_text0
        let final_text :=
          if final_text1 ≠ [] then env.textToMarkdown final_text1 page_num
          else final_text1
        ⟨page_num, final_text, ocr_result.confidence, final_method,
          endT - startT, content_type, some ocr_result⟩

/-- C10 (confirmed): on the OCR branch (native text insufficient, page
rendered) the record's confidence always comes from the OCR result; and when
the native text is at least as long as the best OCR text the method is
`"native"` and the text carried (outside the table branch) is the markdown
conversion of the native text — while the confidence is still the OCR
result's, not `100` and not a native-derived value. -/
theorem process_single_page_native_keeps_ocr_confidence {Img : Type}
    (env : PageEnv Img) (startT endT : ℚ) (page_num : ℕ)
    (content_type : String) (needs_ocr : Bool) (image : Img)
    (hocr : ¬ (needs_ocr = false ∧
      Config.MIN_TEXT_LENGTH ≤ (pyStrip (env.extractNative page_num)).length))
    (hrender : env.convertPage page_num = some image) :
    (process_single_page env startT endT page_num content_type
        needs_ocr).confidence = (env.runOcr image content_type).confidence ∧
    ((env.runOcr image content_type).text.length ≤
        (env.extractNative page_num).length →
      (process_single_page env startT endT page_num content_type
          needs_ocr).method = "native" ∧
        (content_type ≠ "table" →
          (process_single_page env startT endT page_num content_type
              needs_ocr).text =
            (if env.extractNative page_num ≠ [] then
              env.textToMarkdown (env.extractNative page_num) page_num
            else []))) := by
  unfold process_single_page
  rw [if_neg hocr, hrender]
  refine ⟨rfl, ?_⟩
  intro hle
  have hnotlt : ¬ ((env.extractNative page_num).length <
      (env.runOcr image content_type).text.length) := Nat.not_lt.mpr hle
  constructor
  · simp [hnotlt]
  · intro hct
    simp [hnotlt, hct]
    by_cases hne : env.extractNative page_num = []
    · simp [hne]
    · simp [hne]

/-- Concrete collaborators for the witness of the `_process_single_page`
theorem: nonempty native text, unit images, an OCR result with empty text
and confidence 7. -/
def pageEnvW : PageEnv Unit :=
  ⟨fun _ => pyOf "short", fun _ => some (),
    fun _ _ => ⟨[], 7, "m", 0, [], 0, false, "mixed"⟩,
    fun t _ => t, fun _ => [], fun _ => [], fun a _ => a⟩

/-- Witness for `process_single_page_native_keeps_ocr_confidence`: a page
that needs OCR, renders to a unit image, and whose OCR text is empty while
the native text is nonempty. -/
theorem process_single_page_native_keeps_ocr_confidence_witness :
    (¬ ((true = false) ∧ Config.MIN_TEXT_LENGTH ≤
      (pyStrip (pageEnvW.extractNative 1)).length)) ∧
    (pageEnvW.convertPage 1 = some ()) ∧
    ((process_single_page pageEnvW 0 0 1 "text" true).confidence
        = (pageEnvW.runOcr () "text").confidence ∧
      ((pageEnvW.runOcr () "text").text.length ≤
          (pageEnvW.extractNative 1).length →
        (process_single_page pageEnvW 0 0 1 "text" true).method = "native" ∧
          ("text" ≠ "table" →
            (process_single_page pageEnvW 0 0 1 "text" true).text =
              (if pageEnvW.extractNative 1 ≠ [] then
                pageEnvW.textToMarkdown (pageEnvW.extractNative 1) 1
              else [])))) :=
  ⟨by decide, rfl,
    process_single_page_native_keeps_ocr_confidence pageEnvW 0 0 1 "text"
      true () (by decide) rfl⟩

end SmartPDF
